import Mathlib

/-!
Verification development for the esp32tool repository.

Shallow embeddings of the pieces of the code base the checked claims are
about: the SLIP codec (`src/src/util.ts`), the NVS editor's CRC-32 helpers,
page/entry parser, entry-state bitmap and in-place value writes
(`src/js/nvs-editor.js`), the filesystem-image detector and the LittleFS
usage estimator (filesystem helper modules), and the node-usb transport
adapter's signal handling and FTDI baud-rate initialization
(`src/src/node-usb-adapter.ts`).

Byte buffers (`Uint8Array` in the source) are modelled as `List Nat` whose
elements are below 256; JavaScript's 32-bit and arbitrary-precision
arithmetic is modelled with `Nat`/`Int` (with explicit wrapping where the
source wraps), and JavaScript floating point divisions whose operands make
the computation exact at the granularity the code inspects are modelled
with `ℚ`.
-/

namespace Esp32tool

/-! ### SLIP codec (`src/src/util.ts`, `slipEncode`) -/

/-- `slipEncode` from `src/src/util.ts`: start from `[0xC0]`, extend the
accumulator for each input byte (`0xDB ↦ 0xDB 0xDD`, `0xC0 ↦ 0xDB 0xDC`,
otherwise the byte itself), then append the closing `0xC0`. -/
def slipEncode (buffer : List Nat) : List Nat :=
  (buffer.foldl
    (fun encoded byte =>
      if byte = 0xDB then encoded ++ [0xDB, 0xDD]
      else if byte = 0xC0 then encoded ++ [0xDB, 0xDC]
      else encoded ++ [byte])
    [0xC0]) ++ [0xC0]

/-- The per-byte escape map exactly as the claim words it: `0xDB` becomes the
pair `0xDB 0xDD`, `0xC0` becomes the pair `0xDB 0xDC`, every other byte is
kept unchanged. -/
def slipEscapeByte (b : Nat) : List Nat :=
  if b = 0xDB then [0xDB, 0xDD] else if b = 0xC0 then [0xDB, 0xDC] else [b]

theorem slipEncode_foldl_eq (B : List Nat) :
    ∀ acc : List Nat,
      (B.foldl
        (fun encoded byte =>
          if byte = 0xDB then encoded ++ [0xDB, 0xDD]
          else if byte = 0xC0 then encoded ++ [0xDB, 0xDC]
          else encoded ++ [byte])
        acc) = acc ++ B.flatMap slipEscapeByte := by
  induction B with
  | nil => intro acc; simp
  | cons b bs ih =>
    intro acc
    simp only [List.foldl_cons, List.flatMap_cons, ih, slipEscapeByte]
    by_cases hdb : b = 0xDB
    · simp [hdb]
    · by_cases hc0 : b = 0xC0 <;> simp [hdb, hc0]

/-- C1: for every list of bytes `B`, `slipEncode B` is `0xC0`, followed by
the image of `B` under the per-byte escape map, followed by a final `0xC0`;
in particular `slipEncode [0xC0, 0xDB, 0x00, 0xFF]` is
`[0xC0, 0xDB, 0xDC, 0xDB, 0xDD, 0x00, 0xFF, 0xC0]`. -/
theorem slipEncode_spec (B : List Nat) :
    slipEncode B = 0xC0 :: (B.flatMap slipEscapeByte ++ [0xC0]) ∧
      slipEncode [0xC0, 0xDB, 0x00, 0xFF] =
        [0xC0, 0xDB, 0xDC, 0xDB, 0xDD, 0x00, 0xFF, 0xC0] := by
  constructor
  · rw [slipEncode, slipEncode_foldl_eq]
    simp
  · decide

/-! ### CRC-32 (`src/js/nvs-editor.js`, `NVSEditor.crc32Byte` / `crc32` /
`crc32Header`) -/

/-- One shift step of the reflected CRC-32 register: the line
`crc = (crc & 1) ? (crc >>> 1) ^ 0xEDB88320 : crc >>> 1` of
`NVSEditor.crc32Byte`. -/
def crcStep (crc : Nat) : Nat :=
  if crc &&& 1 = 1 then (crc >>> 1) ^^^ 0xEDB88320 else crc >>> 1

/-- The bit loop of `NVSEditor.crc32Byte`: each round XORs the low bit of
`d` into `crc`, applies `crcStep`, and shifts `d` right by one. -/
def crc32ByteAux : Nat → Nat → Nat → Nat
  | 0, crc, _ => crc
  | n + 1, crc, d => crc32ByteAux n (crcStep (crc ^^^ (d &&& 1))) (d >>> 1)

/-- `NVSEditor.crc32Byte`: eight rounds of the bit loop. -/
def crc32Byte (crc d : Nat) : Nat := crc32ByteAux 8 crc d

/-- `NVSEditor.crc32`: fold `crc32Byte` from 0 over the bytes, then
complement (`(~crc) >>> 0`, which on a register value below `2 ^ 32` is XOR
with `0xFFFFFFFF`).  The `offset`/`length` parameters of the source
function are realized by passing the designated slice of the buffer. -/
def crc32 (data : List Nat) : Nat := (data.foldl crc32Byte 0) ^^^ 0xFFFFFFFF

/-- Byte-by-byte stores into a buffer, as `Uint8Array.set` and the
little-endian `DataView` stores perform them. -/
def listWrite : List Nat → Nat → List Nat → List Nat
  | l, _, [] => l
  | l, off, b :: bs => listWrite (l.set off b) (off + 1) bs

/-- `NVSEditor.crc32Header`: copy entry bytes `[0..4)` and `[8..32)` into a
zero-initialized 28-byte buffer (`new Uint8Array(0x20 - 4)` plus two `set`
calls) and CRC that buffer. -/
def crc32Header (data : List Nat) (offset : Nat) : Nat :=
  crc32 (listWrite (listWrite (List.replicate 28 0) 0 ((data.drop offset).take 4))
    4 ((data.drop (offset + 8)).take 24))

/-- The standard byte-at-a-time reflected CRC-32 update: XOR the byte into
the register and run eight polynomial shift steps. -/
def crc32SpecUpdate (crc b : Nat) : Nat := crcStep^[8] (crc ^^^ b)

/-- The CRC-32 the claim names: reflected IEEE polynomial `0xEDB88320`,
initial value 0, final XOR `0xFFFFFFFF`, processed byte-wise. -/
def crc32Spec (data : List Nat) : Nat :=
  (data.foldl crc32SpecUpdate 0) ^^^ 0xFFFFFFFF

theorem xor_div_two (x y : Nat) : (x ^^^ y) / 2 = x / 2 ^^^ y / 2 := by
  apply Nat.eq_of_testBit_eq
  intro i
  simp [Nat.testBit_div_two, Nat.testBit_xor]

theorem crcStep_xor_split (c e : Nat) :
    crcStep (c ^^^ e) = crcStep (c ^^^ (e &&& 1)) ^^^ (e >>> 1) := by
  simp only [crcStep, Nat.and_one_is_mod, Nat.shiftRight_one]
  have hpar : (c ^^^ e) % 2 = (c ^^^ e % 2) % 2 := by
    rw [Nat.xor_mod_two_eq, Nat.xor_mod_two_eq]; omega
  have hdiv : (c ^^^ e) / 2 = (c ^^^ e % 2) / 2 ^^^ e / 2 := by
    rw [xor_div_two, xor_div_two]
    have h2 : e % 2 / 2 = 0 := by omega
    rw [h2, Nat.xor_zero]
  by_cases hp : (c ^^^ e % 2) % 2 = 1
  · rw [if_pos (hpar ▸ hp), if_pos hp, hdiv]
    rw [Nat.xor_assoc, Nat.xor_comm (e / 2), ← Nat.xor_assoc]
  · rw [if_neg (fun h => hp (hpar ▸ h)), if_neg hp, hdiv]

theorem crc32ByteAux_eq (n : Nat) :
    ∀ c d : Nat, crc32ByteAux n c d = crcStep^[n] (c ^^^ d % 2 ^ n) := by
  induction n with
  | zero =>
    intro c d
    simp [crc32ByteAux, Nat.mod_one]
  | succ n ih =>
    intro c d
    rw [show crc32ByteAux (n + 1) c d =
        crc32ByteAux n (crcStep (c ^^^ (d &&& 1))) (d >>> 1) from rfl, ih,
      Function.iterate_succ_apply]
    congr 1
    rw [crcStep_xor_split c (d % 2 ^ (n + 1))]
    have h1 : (d % 2 ^ (n + 1)) &&& 1 = d &&& 1 := by
      rw [Nat.and_one_is_mod, Nat.and_one_is_mod,
        Nat.mod_mod_of_dvd d ⟨2 ^ n, by rw [pow_succ]; ring⟩]
    have h2 : (d % 2 ^ (n + 1)) >>> 1 = (d >>> 1) % 2 ^ n := by
      rw [Nat.shiftRight_one, Nat.shiftRight_one, pow_succ' 2 n,
        Nat.mod_mul_right_div_self]
    rw [h1, h2]

theorem crc32Byte_eq_specUpdate (c d : Nat) (hd : d < 256) :
    crc32Byte c d = crc32SpecUpdate c d := by
  rw [crc32Byte, crc32ByteAux_eq, crc32SpecUpdate,
    Nat.mod_eq_of_lt (show d < 2 ^ 8 from hd)]

theorem foldl_crc32Byte_eq (data : List Nat) :
    ∀ init : Nat, (∀ b ∈ data, b < 256) →
      data.foldl crc32Byte init = data.foldl crc32SpecUpdate init := by
  induction data with
  | nil => intro init _; rfl
  | cons b bs ih =>
    intro init h
    rw [List.foldl_cons, List.foldl_cons,
      crc32Byte_eq_specUpdate init b (h b (List.mem_cons_self b bs)),
      ih _ (fun x hx => h x (List.mem_cons_of_mem b hx))]

theorem crc32_eq_crc32Spec (data : List Nat) (h : ∀ b ∈ data, b < 256) :
    crc32 data = crc32Spec data := by
  rw [crc32, crc32Spec, foldl_crc32Byte_eq data 0 h]

theorem listWrite_length : ∀ (bs l : List Nat) (off : Nat),
    (listWrite l off bs).length = l.length := by
  intro bs
  induction bs with
  | nil => intro l off; rfl
  | cons b bs ih =>
    intro l off
    rw [listWrite, ih, List.length_set]

theorem listWrite_getElem?_lt : ∀ (bs l : List Nat) (off i : Nat), i < off →
    (listWrite l off bs)[i]? = l[i]? := by
  intro bs
  induction bs with
  | nil => intro l off i _; rfl
  | cons b bs ih =>
    intro l off i hi
    rw [listWrite, ih _ _ _ (Nat.lt_succ_of_lt hi),
      List.getElem?_set_ne (by omega)]

theorem listWrite_getElem?_ge : ∀ (bs l : List Nat) (off i : Nat),
    off + bs.length ≤ i → (listWrite l off bs)[i]? = l[i]? := by
  intro bs
  induction bs with
  | nil => intro l off i _; rfl
  | cons b bs ih =>
    intro l off i hi
    rw [List.length_cons] at hi
    rw [listWrite, ih _ _ _ (by omega), List.getElem?_set_ne (by omega)]

theorem listWrite_getElem?_in : ∀ (bs l : List Nat) (off k : Nat),
    k < bs.length → off + bs.length ≤ l.length →
    (listWrite l off bs)[off + k]? = bs[k]? := by
  intro bs
  induction bs with
  | nil => intro l off k hk _; exact absurd hk (by simp)
  | cons b bs ih =>
    intro l off k hk hlen
    rw [List.length_cons] at hlen
    match k with
    | 0 =>
      rw [listWrite, listWrite_getElem?_lt bs _ (off + 1) (off + 0) (by omega)]
      have hofflt : off < l.length := by omega
      simp only [Nat.add_zero, List.getElem?_cons_zero]
      exact List.getElem?_set_self (by simpa using hofflt)
    | k + 1 =>
      rw [listWrite, show off + (k + 1) = (off + 1) + k from by omega,
        ih _ _ _ (by simpa using hk) (by rw [List.length_set]; omega),
        List.getElem?_cons_succ]

theorem listWrite_concat28 (xs ys : List Nat) (hx : xs.length = 4)
    (hy : ys.length = 24) :
    listWrite (listWrite (List.replicate 28 0) 0 xs) 4 ys = xs ++ ys := by
  apply List.ext_getElem?
  intro i
  by_cases h1 : i < 4
  · rw [listWrite_getElem?_lt ys _ 4 i h1]
    have hin := listWrite_getElem?_in xs (List.replicate 28 0) 0 i
      (by omega) (by rw [List.length_replicate]; omega)
    rw [show (0 : Nat) + i = i from by omega] at hin
    rw [hin, List.getElem?_append_left (by omega)]
  · by_cases h2 : i < 28
    · have hin := listWrite_getElem?_in ys (listWrite (List.replicate 28 0) 0 xs)
        4 (i - 4) (by omega)
        (by rw [listWrite_length, List.length_replicate]; omega)
      rw [show 4 + (i - 4) = i from by omega] at hin
      rw [hin, List.getElem?_append_right (by omega), hx]
    · rw [listWrite_getElem?_ge ys _ 4 i (by omega),
        listWrite_getElem?_ge xs _ 0 i (by omega),
        List.getElem?_eq_none (by rw [List.length_replicate]; omega),
        List.getElem?_eq_none (by rw [List.length_append]; omega)]

/-- C2: for every buffer and every entry offset with the full 32-byte entry
in bounds, the header CRC the NVS codec computes (`crc32Header`) equals the
CRC-32 with reflected IEEE polynomial `0xEDB88320`, initial value 0 and
final XOR `0xFFFFFFFF` taken over the 28 bytes `[0..4) ++ [8..32)` of the
entry (the CRC bytes `[4..8)` are excluded). -/
theorem crc32Header_spec (data : List Nat) (offset : Nat)
    (hoff : offset + 32 ≤ data.length) (hbytes : ∀ b ∈ data, b < 256) :
    crc32Header data offset =
      crc32Spec ((data.drop offset).take 4 ++ (data.drop (offset + 8)).take 24) := by
  have hx : ((data.drop offset).take 4).length = 4 := by
    rw [List.length_take, List.length_drop]; omega
  have hy : ((data.drop (offset + 8)).take 24).length = 24 := by
    rw [List.length_take, List.length_drop]; omega
  rw [crc32Header, listWrite_concat28 _ _ hx hy]
  apply crc32_eq_crc32Spec
  intro b hb
  rcases List.mem_append.mp hb with h | h
  · exact hbytes b (List.mem_of_mem_drop (List.mem_of_mem_take h))
  · exact hbytes b (List.mem_of_mem_drop (List.mem_of_mem_take h))

/-- Witness for C2 at a concrete 32-byte buffer. -/
theorem crc32Header_spec_witness :
    ((0 + 32 ≤ (List.range 32).length) ∧ (∀ b ∈ List.range 32, b < 256)) ∧
      crc32Header (List.range 32) 0 =
        crc32Spec (((List.range 32).drop 0).take 4 ++
          ((List.range 32).drop (0 + 8)).take 24) :=
  ⟨⟨by decide, by decide⟩, crc32Header_spec (List.range 32) 0 (by decide) (by decide)⟩

/-! ### NVS entry-state bitmap (`src/js/nvs-editor.js`,
`NVSEditor._getNVSItemState` / `_setNVSItemState`) -/

/-- `NVSEditor._getNVSItemState`: two bits per entry, read from byte
`index / 4` at bit position `(index % 4) * 2`. -/
def getNVSItemState (bitmap : List Nat) (index : Nat) : Nat :=
  (bitmap.getD (index / 4) 0 >>> (index % 4 * 2)) &&& 3

/-- `NVSEditor._setNVSItemState`: clear the two bits
(`bitmap[bmpIdx] &= ~(3 << bmpBit)`, a `Uint8Array` store, hence the mask
is taken modulo 256) and OR the new state in (again stored modulo 256). -/
def setNVSItemState (bitmap : List Nat) (index state : Nat) : List Nat :=
  let bmpIdx := index / 4
  let bmpBit := index % 4 * 2
  let bitmap1 := bitmap.set bmpIdx (bitmap.getD bmpIdx 0 &&& (0xFF ^^^ (3 <<< bmpBit)))
  bitmap1.set bmpIdx ((bitmap1.getD bmpIdx 0 ||| (state <<< bmpBit)) % 256)

set_option maxRecDepth 100000 in
theorem nvs_byte_state : ∀ b < 256, ∀ p < 4, ∀ s < 4, ∀ q < 4,
    ((((b &&& (0xFF ^^^ (3 <<< (p * 2)))) ||| (s <<< (p * 2))) % 256) >>> (q * 2)) &&& 3 =
      if q = p then s else (b >>> (q * 2)) &&& 3 := by
  decide

theorem setNVSItemState_eq_set (bitmap : List Nat) (i s : Nat)
    (hidx : i / 4 < bitmap.length) :
    setNVSItemState bitmap i s =
      bitmap.set (i / 4)
        (((bitmap.getD (i / 4) 0 &&& (0xFF ^^^ (3 <<< (i % 4 * 2)))) |||
          (s <<< (i % 4 * 2))) % 256) := by
  unfold setNVSItemState
  rw [List.set_set]
  congr 2
  rw [List.getD_eq_getElem?_getD, List.getElem?_set_self hidx]
  rfl

theorem getNVSItemState_set (bitmap : List Nat) (i s j : Nat)
    (hlen : bitmap.length = 32) (hbytes : ∀ b ∈ bitmap, b < 256)
    (hi : i < 126) (hs : s < 4) (hj : j < 126) :
    getNVSItemState (setNVSItemState bitmap i s) j =
      if j = i then s else getNVSItemState bitmap j := by
  have hidx : i / 4 < bitmap.length := by omega
  have hb0 : bitmap.getD (i / 4) 0 = bitmap[i / 4] := by
    rw [List.getD_eq_getElem?_getD, List.getElem?_eq_getElem hidx]; rfl
  have hb0lt : bitmap.getD (i / 4) 0 < 256 := by
    rw [hb0]; exact hbytes _ (List.getElem_mem hidx)
  rw [setNVSItemState_eq_set bitmap i s hidx, getNVSItemState, getNVSItemState]
  by_cases hsame : j / 4 = i / 4
  · rw [hsame, List.getD_eq_getElem?_getD, List.getElem?_set_self hidx,
      Option.getD_some, nvs_byte_state _ hb0lt _ (by omega) _ hs _ (by omega)]
    by_cases hji : j = i
    · rw [if_pos (by omega), if_pos hji]
    · rw [if_neg (by omega), if_neg hji, hb0]
  · rw [List.getD_eq_getElem?_getD, List.getElem?_set_ne (fun h => hsame h.symm),
      if_neg (by omega), List.getD_eq_getElem?_getD]

/-- C9: after `_setNVSItemState bitmap i s` (entry index `i < 126`, state
`s < 4`, 32-byte bitmap), `_getNVSItemState` at `i` returns `s`, and at any
other entry index `j` it returns the same value as before — each entry
occupies exactly two disjoint bits of the bitmap. -/
theorem nvsItemState_set_get (bitmap : List Nat) (i s : Nat)
    (hlen : bitmap.length = 32) (hbytes : ∀ b ∈ bitmap, b < 256)
    (hi : i < 126) (hs : s < 4) :
    getNVSItemState (setNVSItemState bitmap i s) i = s ∧
      ∀ j, j < 126 → j ≠ i →
        getNVSItemState (setNVSItemState bitmap i s) j = getNVSItemState bitmap j := by
  constructor
  · rw [getNVSItemState_set bitmap i s i hlen hbytes hi hs hi, if_pos rfl]
  · intro j hj hji
    rw [getNVSItemState_set bitmap i s j hlen hbytes hi hs hj, if_neg hji]

/-- Witness for C9 at a concrete all-`0xFF` bitmap, entry 5, state 2. -/
theorem nvsItemState_set_get_witness :
    ((List.replicate 32 0xFF).length = 32 ∧
      (∀ b ∈ List.replicate 32 0xFF, b < 256) ∧ 5 < 126 ∧ 2 < 4) ∧
      (getNVSItemState (setNVSItemState (List.replicate 32 0xFF) 5 2) 5 = 2 ∧
        ∀ j, j < 126 → j ≠ 5 →
          getNVSItemState (setNVSItemState (List.replicate 32 0xFF) 5 2) j =
            getNVSItemState (List.replicate 32 0xFF) j) :=
  ⟨⟨by decide, by decide, by decide, by decide⟩,
    nvsItemState_set_get (List.replicate 32 0xFF) 5 2 (by decide) (by decide)
      (by decide) (by decide)⟩

/-! ### NVS page/entry parser (`src/js/nvs-editor.js`, `NVSEditor._parse`)

Little-endian reads model `_u8`/`_u16`/`_u32`; indices outside the buffer
read as 0 (the parser guards every read it performs). -/

def u8 (data : List Nat) (off : Nat) : Nat := data.getD off 0

def u16 (data : List Nat) (off : Nat) : Nat :=
  data.getD off 0 ||| (data.getD (off + 1) 0 <<< 8)

def u32 (data : List Nat) (off : Nat) : Nat :=
  data.getD off 0 ||| (data.getD (off + 1) 0 <<< 8) |||
    (data.getD (off + 2) 0 <<< 16) ||| (data.getD (off + 3) 0 <<< 24)

/-- `NVSEditor._readString`: read up to `maxLen` bytes, stop at a NUL byte,
accept printable ASCII (32..126), stop at the first non-printable byte. -/
def readString (data : List Nat) : Nat → Nat → List Nat
  | _, 0 => []
  | off, maxLen + 1 =>
    let b := data.getD off 0
    if b = 0 then []
    else if 32 ≤ b ∧ b ≤ 126 then b :: readString data (off + 1) maxLen
    else []

/-- The page-state names `_parse` assigns from the 32-bit state word. -/
inductive NVSPageState where
  | uninit
  | active
  | full
  | freeing
  | corrupt
  | unknown
deriving DecidableEq, Repr

/-- The state-word dispatch at the top of the page loop of `_parse`. -/
def nvsPageStateName (state : Nat) : NVSPageState :=
  if state = 0xFFFFFFFF then .uninit
  else if state = 0xFFFFFFFE then .active
  else if state = 0xFFFFFFFC then .full
  else if state = 0xFFFFFFF8 then .freeing
  else if state = 0xFFFFFFF0 then .corrupt
  else .unknown

/-- One decoded entry of `_parse`: the structural header fields, the stored
and recomputed header CRC, the key and the entry/page offsets.  The decoded
payload (`item.value`) and the namespace-name resolution are
presentation-only and do not affect which entries are produced. -/
structure NVSItem where
  nsIndex : Nat
  datatype : Nat
  span : Nat
  chunkIndex : Nat
  crc32 : Nat
  headerCrcCalc : Nat
  key : List Nat
  offset : Nat
  pageOffset : Nat
deriving DecidableEq, Repr

/-- One parsed page of `_parse`. -/
structure NVSPage where
  offset : Nat
  state : NVSPageState
  seq : Nat
  version : Nat
  crc32 : Nat
  items : List NVSItem
deriving DecidableEq, Repr

/-- The entry loop of `_parse` over the 126 slots of a page, written with a
structural fuel argument (each iteration advances `entry` by at least one
and the loop stops at `entry = 126`, so fuel 126 from `entry = 0` is never
exhausted): decode only slots whose bitmap state is `written (2)`,
`continue` past malformed headers, `break` when an entry would run past the
end of the buffer, and skip the `span - 1` payload slots of a multi-slot
entry. -/
def parseEntriesAux (data : List Nat) (secOff : Nat) (stateBitmap : List Nat) :
    Nat → Nat → List NVSItem
  | _, 0 => []
  | entry, fuel + 1 =>
    if entry < 126 then
      if getNVSItemState stateBitmap entry ≠ 2 then
        parseEntriesAux data secOff stateBitmap (entry + 1) fuel
      else
        let eOff := secOff + 64 + entry * 32
        if eOff + 32 > data.length then []
        else
          let nsIndex := u8 data eOff
          let datatype := u8 data (eOff + 1)
          let span := u8 data (eOff + 2)
          let chunkIndex := u8 data (eOff + 3)
          if span = 0 ∨ span > 126 then
            parseEntriesAux data secOff stateBitmap (entry + 1) fuel
          else if datatype = 0xFF ∨ datatype = 0x00 then
            parseEntriesAux data secOff stateBitmap (entry + 1) fuel
          else if nsIndex = 0xFF then
            parseEntriesAux data secOff stateBitmap (entry + 1) fuel
          else
            let crc := u32 data (eOff + 4)
            let key := readString data (eOff + 8) 16
            if nsIndex ≠ 0 ∧ key = [] then
              parseEntriesAux data secOff stateBitmap (entry + 1) fuel
            else
              { nsIndex := nsIndex, datatype := datatype, span := span,
                chunkIndex := chunkIndex, crc32 := crc,
                headerCrcCalc := crc32Header data eOff, key := key,
                offset := eOff, pageOffset := secOff } ::
                parseEntriesAux data secOff stateBitmap
                  (entry + 1 + (if 1 < span then span - 1 else 0)) fuel
    else []

/-- The entry loop of `_parse`, starting at slot 0 with sufficient fuel. -/
def parseEntries (data : List Nat) (secOff : Nat) (stateBitmap : List Nat) :
    List NVSItem :=
  parseEntriesAux data secOff stateBitmap 0 126

/-- The page loop of `_parse`, written with a structural fuel argument
(each iteration advances `secOff` by 4096 and the loop stops at
`data.length`, so `data.length / 4096 + 1` units of fuel are never
exhausted): 4 KiB steps, `break` when fewer than 64 header bytes remain,
`continue` (skip) on pages whose state word is uninitialized or corrupt. -/
def parsePagesAux (data : List Nat) : Nat → Nat → List NVSPage
  | _, 0 => []
  | secOff, fuel + 1 =>
    if secOff < data.length then
      if secOff + 64 > data.length then []
      else
        let sn := nvsPageStateName (u32 data secOff)
        if sn = .uninit ∨ sn = .corrupt then
          parsePagesAux data (secOff + 4096) fuel
        else
          { offset := secOff, state := sn, seq := u32 data (secOff + 4),
            version := u8 data (secOff + 8), crc32 := u32 data (secOff + 28),
            items := parseEntries data secOff ((data.drop (secOff + 32)).take 32) } ::
            parsePagesAux data (secOff + 4096) fuel
    else []

/-- `NVSEditor._parse` (structural content; the namespace table only
renames items and is omitted). -/
def nvsParse (data : List Nat) : List NVSPage :=
  parsePagesAux data 0 (data.length / 4096 + 1)

theorem parsePagesAux_offsets (data : List Nat) : ∀ (fuel secOff o : Nat),
    data.length ≤ secOff + 4096 * fuel →
    ((∃ p ∈ parsePagesAux data secOff fuel, p.offset = o) ↔
      (secOff ≤ o ∧ (o - secOff) % 4096 = 0 ∧ o + 64 ≤ data.length ∧
        nvsPageStateName (u32 data o) ≠ .uninit ∧
        nvsPageStateName (u32 data o) ≠ .corrupt)) := by
  intro fuel
  induction fuel with
  | zero =>
    intro secOff o hn
    rw [parsePagesAux]
    constructor
    · rintro ⟨p, hp, -⟩
      exact absurd hp (List.not_mem_nil p)
    · rintro ⟨h2, -, h4, -⟩
      omega
  | succ fuel ih =>
    intro secOff o hn
    rw [parsePagesAux]
    dsimp only
    by_cases h1 : secOff < data.length
    · rw [if_pos h1]
      by_cases h2 : secOff + 64 > data.length
      · rw [if_pos h2]
        constructor
        · rintro ⟨p, hp, -⟩
          exact absurd hp (List.not_mem_nil p)
        · rintro ⟨h3, -, h4, -⟩
          omega
      · rw [if_neg h2]
        have hrec := ih (secOff + 4096) o (by omega)
        by_cases hskip :
            nvsPageStateName (u32 data secOff) = .uninit ∨
              nvsPageStateName (u32 data secOff) = .corrupt
        · rw [if_pos hskip, hrec]
          constructor
          · rintro ⟨h3, h4, h5, h6, h7⟩
            exact ⟨by omega, by omega, h5, h6, h7⟩
          · rintro ⟨h3, h4, h5, h6, h7⟩
            have hne : o ≠ secOff := by
              rintro rfl
              rcases hskip with h | h
              · exact h6 h
              · exact h7 h
            exact ⟨by omega, by omega, h5, h6, h7⟩
        · rw [if_neg hskip]
          push_neg at hskip
          constructor
          · intro hex
            rcases hex with ⟨p, hp, hpo⟩
            rcases List.mem_cons.mp hp with rfl | hp'
            · have hpo' : secOff = o := hpo
              subst hpo'
              exact ⟨le_refl _, by omega, by omega, hskip.1, hskip.2⟩
            · have hc := hrec.mp ⟨p, hp', hpo⟩
              exact ⟨by omega, by omega, hc.2.2.1, hc.2.2.2.1, hc.2.2.2.2⟩
          · rintro ⟨h3, h4, h5, h6, h7⟩
            by_cases ho : o = secOff
            · subst ho
              exact ⟨_, List.mem_cons_self _ _, rfl⟩
            · have hc := hrec.mpr ⟨by omega, by omega, h5, h6, h7⟩
              rcases hc with ⟨p, hp, hpo⟩
              exact ⟨p, List.mem_cons_of_mem _ hp, hpo⟩
    · rw [if_neg h1]
      constructor
      · rintro ⟨p, hp, -⟩
        exact absurd hp (List.not_mem_nil p)
      · rintro ⟨h3, -, h4, -⟩
        omega

/-- C3 amended: `_parse` skips pages whose 32-bit state word is
`0xFFFFFFFF` (uninitialized) or `0xFFFFFFF0` (corrupt) but keeps walking:
a page at offset `o` contributes a page record precisely when `o` is a
4 KiB-aligned offset with a complete 64-byte header whose state word is
neither uninitialized nor corrupt — regardless of any uninitialized or
corrupt page at a lower offset. -/
theorem nvsParse_pages_iff (data : List Nat) (o : Nat) :
    (∃ p ∈ nvsParse data, p.offset = o) ↔
      (o % 4096 = 0 ∧ o + 64 ≤ data.length ∧
        nvsPageStateName (u32 data o) ≠ .uninit ∧
        nvsPageStateName (u32 data o) ≠ .corrupt) := by
  have h := parsePagesAux_offsets data (data.length / 4096 + 1) 0 o (by omega)
  rw [nvsParse, h]
  constructor
  · rintro ⟨-, h2, h3, h4, h5⟩
    exact ⟨by omega, h3, h4, h5⟩
  · rintro ⟨h2, h3, h4, h5⟩
    exact ⟨by omega, by omega, h3, h4, h5⟩

/-- Unfolding equation for one step of the entry loop (definitional). -/
theorem parseEntriesAux_succ (data : List Nat) (secOff : Nat) (bm : List Nat)
    (entry fuel : Nat) :
    parseEntriesAux data secOff bm entry (fuel + 1) =
      (if entry < 126 then
        if getNVSItemState bm entry ≠ 2 then
          parseEntriesAux data secOff bm (entry + 1) fuel
        else
          let eOff := secOff + 64 + entry * 32
          if eOff + 32 > data.length then []
          else
            let nsIndex := u8 data eOff
            let datatype := u8 data (eOff + 1)
            let span := u8 data (eOff + 2)
            let chunkIndex := u8 data (eOff + 3)
            if span = 0 ∨ span > 126 then
              parseEntriesAux data secOff bm (entry + 1) fuel
            else if datatype = 0xFF ∨ datatype = 0x00 then
              parseEntriesAux data secOff bm (entry + 1) fuel
            else if nsIndex = 0xFF then
              parseEntriesAux data secOff bm (entry + 1) fuel
            else
              let crc := u32 data (eOff + 4)
              let key := readString data (eOff + 8) 16
              if nsIndex ≠ 0 ∧ key = [] then
                parseEntriesAux data secOff bm (entry + 1) fuel
              else
                { nsIndex := nsIndex, datatype := datatype, span := span,
                  chunkIndex := chunkIndex, crc32 := crc,
                  headerCrcCalc := crc32Header data eOff, key := key,
                  offset := eOff, pageOffset := secOff } ::
                  parseEntriesAux data secOff bm
                    (entry + 1 + (if 1 < span then span - 1 else 0)) fuel
      else []) := rfl

/-- Unfolding equation for one step of the page loop (definitional). -/
theorem parsePagesAux_succ (data : List Nat) (secOff fuel : Nat) :
    parsePagesAux data secOff (fuel + 1) =
      (if secOff < data.length then
        if secOff + 64 > data.length then []
        else
          let sn := nvsPageStateName (u32 data secOff)
          if sn = .uninit ∨ sn = .corrupt then
            parsePagesAux data (secOff + 4096) fuel
          else
            { offset := secOff, state := sn, seq := u32 data (secOff + 4),
              version := u8 data (secOff + 8), crc32 := u32 data (secOff + 28),
              items := parseEntries data secOff ((data.drop (secOff + 32)).take 32) } ::
              parsePagesAux data (secOff + 4096) fuel
      else []) := rfl

/-- Unfolding equation for one step of `_readString` (definitional). -/
theorem readString_succ (data : List Nat) (off maxLen : Nat) :
    readString data off (maxLen + 1) =
      (let b := data.getD off 0
       if b = 0 then []
       else if 32 ≤ b ∧ b ≤ 126 then b :: readString data (off + 1) maxLen
       else []) := rfl

/-- A page whose bitmap marks no remaining slot as written yields no
items. -/
theorem parseEntriesAux_nil (data : List Nat) (secOff : Nat) (bitmap : List Nat) :
    ∀ fuel entry, (∀ j, entry ≤ j → j < 126 → getNVSItemState bitmap j ≠ 2) →
      parseEntriesAux data secOff bitmap entry fuel = [] := by
  intro fuel
  induction fuel with
  | zero => intro entry _; rfl
  | succ fuel ih =>
    intro entry h
    rw [parseEntriesAux_succ]
    by_cases he : entry < 126
    · rw [if_pos he, if_pos (h entry (le_refl entry) he)]
      exact ih (entry + 1) (fun j h1 h2 => h j (by omega) h2)
    · rw [if_neg he]

/-- Page 1 of the two-page counterexample image `nvsEx`: an active page
(state word `0xFFFFFFFE`, sequence number 1) whose bitmap marks entry slot
0 as written, holding a U8 entry `a = 5` under namespace index 1. -/
def nvsExPage1 : List Nat :=
  [0xFE, 0xFF, 0xFF, 0xFF] ++ [1, 0, 0, 0] ++ [0xFE, 0xFF, 0xFF] ++
    List.replicate 17 0xFF ++ [0, 0, 0, 0] ++ ([0xFE] ++ List.replicate 31 0xFF) ++
    ([1, 1, 1, 0xFF] ++ [0, 0, 0, 0] ++ ([97] ++ List.replicate 15 0) ++
      [5, 0, 0, 0, 0xFF, 0xFF, 0xFF, 0xFF])

/-- A two-page NVS image: page 0 entirely erased flash (state word
`0xFFFFFFFF`, uninitialized), page 1 active with one written entry. -/
def nvsEx : List Nat := List.replicate 4096 0xFF ++ nvsExPage1

theorem nvsEx_length : nvsEx.length = 4192 := by
  rw [nvsEx, List.length_append, List.length_replicate]
  decide

theorem nvsEx_getD_hi (i : Nat) (h : 4096 ≤ i) :
    nvsEx.getD i 0 = nvsExPage1.getD (i - 4096) 0 := by
  rw [nvsEx, List.getD_eq_getElem?_getD, List.getD_eq_getElem?_getD,
    List.getElem?_append_right (by rw [List.length_replicate]; omega),
    List.length_replicate]

theorem nvsEx_getD_lo (i : Nat) (h : i < 4096) : nvsEx.getD i 0 = 0xFF := by
  rw [nvsEx, List.getD_eq_getElem?_getD,
    List.getElem?_append_left (by rw [List.length_replicate]; omega),
    List.getElem?_replicate, if_pos h]
  rfl

theorem nvsEx_state0 : u32 nvsEx 0 = 0xFFFFFFFF := by
  rw [u32, nvsEx_getD_lo 0 (by omega), nvsEx_getD_lo (0 + 1) (by omega),
    nvsEx_getD_lo (0 + 2) (by omega), nvsEx_getD_lo (0 + 3) (by omega)]
  decide

theorem nvsEx_state1 : u32 nvsEx (0 + 4096) = 0xFFFFFFFE := by
  rw [u32, nvsEx_getD_hi (0 + 4096) (by omega), nvsEx_getD_hi (0 + 4096 + 1) (by omega),
    nvsEx_getD_hi (0 + 4096 + 2) (by omega), nvsEx_getD_hi (0 + 4096 + 3) (by omega)]
  decide

/-- The entry-state bitmap of page 1 of `nvsEx`. -/
def nvsExBitmap : List Nat := [0xFE] ++ List.replicate 31 0xFF

theorem nvsEx_bitmap : (nvsEx.drop (4096 + 32)).take 32 = nvsExBitmap := by
  have h1 : nvsEx.drop (4096 + 32) = nvsExPage1.drop 32 := by
    rw [nvsEx, ← List.drop_drop, List.drop_left' (List.length_replicate 4096 0xFF)]
  rw [h1]
  decide

theorem nvsEx_entry_ns : u8 nvsEx (4096 + 64 + 0 * 32) = 1 := by
  rw [u8, nvsEx_getD_hi _ (by omega)]
  decide

theorem nvsEx_entry_dt : u8 nvsEx (4096 + 64 + 0 * 32 + 1) = 1 := by
  rw [u8, nvsEx_getD_hi _ (by omega)]
  decide

theorem nvsEx_entry_span : u8 nvsEx (4096 + 64 + 0 * 32 + 2) = 1 := by
  rw [u8, nvsEx_getD_hi _ (by omega)]
  decide

theorem nvsEx_entry_key : readString nvsEx (4096 + 64 + 0 * 32 + 8) 16 = [97] := by
  rw [show (16 : Nat) = 15 + 1 from rfl, readString_succ]
  dsimp only
  rw [nvsEx_getD_hi _ (by omega)]
  rw [show nvsExPage1.getD (4096 + 64 + 0 * 32 + 8 - 4096) 0 = 97 from by decide]
  rw [if_neg (by decide), if_pos (by decide)]
  rw [show (15 : Nat) = 14 + 1 from rfl, readString_succ]
  dsimp only
  rw [nvsEx_getD_hi _ (by omega)]
  rw [show nvsExPage1.getD (4096 + 64 + 0 * 32 + 8 + 1 - 4096) 0 = 0 from by decide]
  rw [if_pos rfl]

theorem nvsEx_items : (parseEntriesAux nvsEx 4096 nvsExBitmap 0 126).length = 1 := by
  rw [show (126 : Nat) = 125 + 1 from rfl, parseEntriesAux_succ]
  rw [if_pos (by decide : (0 : Nat) < 126)]
  rw [if_neg (show ¬(getNVSItemState nvsExBitmap 0 ≠ 2) from by decide)]
  dsimp only
  rw [if_neg (show ¬(4096 + 64 + 0 * 32 + 32 > nvsEx.length) from by
    rw [nvsEx_length]; decide)]
  rw [nvsEx_entry_span, nvsEx_entry_dt, nvsEx_entry_ns]
  rw [if_neg (by decide), if_neg (by decide), if_neg (by decide)]
  rw [nvsEx_entry_key]
  rw [if_neg (by decide)]
  rw [List.length_cons]
  rw [parseEntriesAux_nil nvsEx 4096 nvsExBitmap 125
    (0 + 1 + (if 1 < 1 then 1 - 1 else 0)) (by decide)]
  rfl

/-- C3 counterexample: `nvsEx` contains an uninitialized page (offset 0,
state word `0xFFFFFFFF`), yet the page at the higher offset 4096 still
contributes an entry to the parse result, so `_parse` does not stop at the
first uninitialized page. -/
theorem nvsParse_counterexample :
    u32 nvsEx 0 = 0xFFFFFFFF ∧
      ((nvsParse nvsEx).map fun p => (p.offset, p.items.length)) = [(4096, 1)] := by
  constructor
  · exact nvsEx_state0
  · rw [nvsParse, nvsEx_length]
    rw [parsePagesAux_succ nvsEx 0 1]
    rw [nvsEx_length]
    dsimp only
    rw [if_pos (by decide : (0 : Nat) < 4192)]
    rw [if_neg (by decide : ¬((0 : Nat) + 64 > 4192))]
    rw [nvsEx_state0]
    rw [if_pos (show nvsPageStateName 0xFFFFFFFF = .uninit ∨
      nvsPageStateName 0xFFFFFFFF = .corrupt from by decide)]
    rw [parsePagesAux_succ nvsEx (0 + 4096) 0]
    rw [nvsEx_length]
    dsimp only
    rw [if_pos (by decide : (0 : Nat) + 4096 < 4192)]
    rw [if_neg (by decide : ¬((0 : Nat) + 4096 + 64 > 4192))]
    rw [nvsEx_state1]
    rw [if_neg (show ¬(nvsPageStateName 0xFFFFFFFE = .uninit ∨
      nvsPageStateName 0xFFFFFFFE = .corrupt) from by decide)]
    rw [show parsePagesAux nvsEx (0 + 4096 + 4096) 0 = [] from rfl]
    rw [List.map_cons, List.map_nil]
    dsimp only
    rw [nvsEx_bitmap, parseEntries, nvsEx_items]

/-! ### NVS in-place value writes (`src/js/nvs-editor.js`,
`NVSEditor._writeValue`) -/

/-- The mutable editor state `_writeValue` touches: the partition bytes
(`this.data`) and the dirty flag (`this.modified`). -/
structure NVSState where
  data : List Nat
  modified : Bool
deriving DecidableEq, Repr

/-- Outcome of a `_writeValue` call: the state after the call plus the
thrown error message, if any (a throw leaves the state as it was at the
moment of the throw; every primitive case validates before writing). -/
structure NVSWriteResult where
  thrown : Option String
  state : NVSState
deriving DecidableEq, Repr

/-- The `n`-byte little-endian store a `DataView` performs. -/
def leBytes : Nat → Nat → List Nat
  | 0, _ => []
  | n + 1, v => v % 256 :: leBytes n (v / 256)

/-- The epilogue every successful primitive case of `_writeValue` runs:
store the value bytes at entry offset 24, recompute the header CRC over the
updated buffer, store it at entry offset 4, and set the dirty flag. -/
def nvsWriteCommit (st : NVSState) (off : Nat) (bytes : List Nat) : NVSWriteResult :=
  let d1 := listWrite st.data (off + 24) bytes
  let d2 := listWrite d1 (off + 4) (leBytes 4 (crc32Header d1 off))
  { thrown := none, state := { data := d2, modified := true } }

/-- The primitive-datatype cases (0x01..0x18) of `NVSEditor._writeValue`.
The JavaScript input is a string; its `parseInt`/`BigInt` parse result is
modelled as `Option Int` (`none`: NaN or a BigInt syntax error).  Each case
validates the parsed value first and throws without touching the state;
on success it runs the shared store/CRC/dirty epilogue.  The string, blob
and blob-index branches are outside the modelled fragment (`none`). -/
def writeValuePrimitive (st : NVSState) (off : Nat) (datatype : Nat)
    (newValue : Option Int) : Option NVSWriteResult :=
  match datatype with
  | 0x01 => some <| match newValue with
    | none => { thrown := some "U8 must be 0-255", state := st }
    | some v =>
      if v < 0 ∨ v > 255 then { thrown := some "U8 must be 0-255", state := st }
      else nvsWriteCommit st off [v.toNat &&& 0xFF]
  | 0x02 => some <| match newValue with
    | none => { thrown := some "U16 must be 0-65535", state := st }
    | some v =>
      if v < 0 ∨ v > 65535 then { thrown := some "U16 must be 0-65535", state := st }
      else nvsWriteCommit st off [v.toNat &&& 0xFF, (v.toNat >>> 8) &&& 0xFF]
  | 0x04 => some <| match newValue with
    | none => { thrown := some "U32 must be 0-4294967295", state := st }
    | some v =>
      if v < 0 ∨ v > 4294967295 then
        { thrown := some "U32 must be 0-4294967295", state := st }
      else nvsWriteCommit st off (leBytes 4 v.toNat)
  | 0x08 => some <| match newValue with
    | none => { thrown := some "U64 must be valid BigInt", state := st }
    | some v =>
      if v < 0 ∨ v > 18446744073709551615 then
        { thrown := some "U64 out of range", state := st }
      else nvsWriteCommit st off (leBytes 8 v.toNat)
  | 0x11 => some <| match newValue with
    | none => { thrown := some "I8 must be -128 to 127", state := st }
    | some v =>
      if v < -128 ∨ v > 127 then
        { thrown := some "I8 must be -128 to 127", state := st }
      else nvsWriteCommit st off [(if v < 0 then v + 256 else v).toNat]
  | 0x12 => some <| match newValue with
    | none => { thrown := some "I16 must be -32768 to 32767", state := st }
    | some v =>
      if v < -32768 ∨ v > 32767 then
        { thrown := some "I16 must be -32768 to 32767", state := st }
      else nvsWriteCommit st off (leBytes 2 (v.emod 65536).toNat)
  | 0x14 => some <| match newValue with
    | none => { thrown := some "I32 out of range", state := st }
    | some v =>
      if v < -2147483648 ∨ v > 2147483647 then
        { thrown := some "I32 out of range", state := st }
      else nvsWriteCommit st off (leBytes 4 (v.emod 4294967296).toNat)
  | 0x18 => some <| match newValue with
    | none => { thrown := some "I64 must be valid BigInt", state := st }
    | some v =>
      if v < -9223372036854775808 ∨ v > 9223372036854775807 then
        { thrown := some "I64 out of range", state := st }
      else nvsWriteCommit st off (leBytes 8 (v.emod 18446744073709551616).toNat)
  | _ => none

theorem leBytes_length : ∀ (n v : Nat), (leBytes n v).length = n := by
  intro n
  induction n with
  | zero => intro v; rfl
  | succ n ih => intro v; rw [leBytes, List.length_cons, ih]

theorem leBytes_getElem? : ∀ (n v k : Nat), k < n →
    (leBytes n v)[k]? = some (v / 256 ^ k % 256) := by
  intro n
  induction n with
  | zero => intro v k hk; omega
  | succ n ih =>
    intro v k hk
    match k with
    | 0 => rw [leBytes, List.getElem?_cons_zero, pow_zero, Nat.div_one]
    | k + 1 =>
      rw [leBytes, List.getElem?_cons_succ, ih (v / 256) k (by omega),
        Nat.div_div_eq_div_mul, ← pow_succ']

/-- C5: on a written U32 entry (datatype 0x04) and a new value in
`[0, 4294967295]`, `_writeValue` returns without throwing, writes exactly
the 4-byte little-endian encoding of the value into entry bytes `[24..28)`
and the header CRC recomputed over the updated buffer into entry bytes
`[4..8)`, sets the dirty flag, and leaves every other byte of the partition
buffer unchanged. -/
theorem writeValueU32_spec (st : NVSState) (off : Nat) (v : Int)
    (h0 : 0 ≤ v) (h1 : v ≤ 4294967295) (hoff : off + 32 ≤ st.data.length) :
    ∃ st' : NVSState,
      writeValuePrimitive st off 0x04 (some v) =
        some { thrown := none, state := st' } ∧
      st'.modified = true ∧
      st'.data.length = st.data.length ∧
      (∀ k, k < 4 → st'.data.getD (off + 24 + k) 0 = v.toNat / 256 ^ k % 256) ∧
      (∀ k, k < 4 → st'.data.getD (off + 4 + k) 0 =
        crc32Header (listWrite st.data (off + 24) (leBytes 4 v.toNat)) off
          / 256 ^ k % 256) ∧
      (∀ i, i < st.data.length →
        (i < off + 4 ∨ (off + 8 ≤ i ∧ i < off + 24) ∨ off + 28 ≤ i) →
        st'.data.getD i 0 = st.data.getD i 0) := by
  have harm : writeValuePrimitive st off 0x04 (some v) =
      some (if v < 0 ∨ v > 4294967295 then
        { thrown := some "U32 must be 0-4294967295", state := st }
      else nvsWriteCommit st off (leBytes 4 v.toNat)) := rfl
  refine ⟨(nvsWriteCommit st off (leBytes 4 v.toNat)).state, ?_, rfl, ?_, ?_, ?_, ?_⟩
  · rw [harm, if_neg (by omega)]
    rfl
  · show (listWrite _ _ _).length = _
    rw [listWrite_length, listWrite_length]
  · intro k hk
    show (listWrite _ _ _).getD _ _ = _
    rw [List.getD_eq_getElem?_getD,
      listWrite_getElem?_ge _ _ _ _ (by rw [leBytes_length]; omega),
      listWrite_getElem?_in _ _ _ _ (by rw [leBytes_length]; omega)
        (by rw [leBytes_length]; omega),
      leBytes_getElem? 4 v.toNat k hk]
    rfl
  · intro k hk
    show (listWrite _ _ _).getD _ _ = _
    rw [List.getD_eq_getElem?_getD,
      listWrite_getElem?_in _ _ _ _ (by rw [leBytes_length]; omega)
        (by rw [leBytes_length, listWrite_length]; omega),
      leBytes_getElem? 4 _ k hk]
    rfl
  · intro i hi hcase
    show (listWrite _ _ _).getD _ _ = _
    rcases hcase with h | ⟨ha, hb⟩ | h
    · rw [List.getD_eq_getElem?_getD,
        listWrite_getElem?_lt _ _ _ _ (by omega),
        listWrite_getElem?_lt _ _ _ _ (by omega),
        ← List.getD_eq_getElem?_getD]
    · rw [List.getD_eq_getElem?_getD,
        listWrite_getElem?_ge _ _ _ _ (by rw [leBytes_length]; omega),
        listWrite_getElem?_lt _ _ _ _ (by omega),
        ← List.getD_eq_getElem?_getD]
    · rw [List.getD_eq_getElem?_getD,
        listWrite_getElem?_ge _ _ _ _ (by rw [leBytes_length]; omega),
        listWrite_getElem?_ge _ _ _ _ (by rw [leBytes_length]; omega),
        ← List.getD_eq_getElem?_getD]

/-- Witness for C5: a 32-byte buffer, entry at offset 0, new value 7. -/
theorem writeValueU32_spec_witness :
    ((0 : Int) ≤ 7 ∧ (7 : Int) ≤ 4294967295 ∧
      0 + 32 ≤ (NVSState.mk (List.replicate 32 0xAB) false).data.length) ∧
      ∃ st' : NVSState,
        writeValuePrimitive ⟨List.replicate 32 0xAB, false⟩ 0 0x04 (some 7) =
          some { thrown := none, state := st' } ∧
        st'.modified = true ∧
        st'.data.length = (NVSState.mk (List.replicate 32 0xAB) false).data.length ∧
        (∀ k, k < 4 → st'.data.getD (0 + 24 + k) 0 = (7 : Int).toNat / 256 ^ k % 256) ∧
        (∀ k, k < 4 → st'.data.getD (0 + 4 + k) 0 =
          crc32Header (listWrite (List.replicate 32 0xAB) (0 + 24)
            (leBytes 4 (7 : Int).toNat)) 0 / 256 ^ k % 256) ∧
        (∀ i, i < (NVSState.mk (List.replicate 32 0xAB) false).data.length →
          (i < 0 + 4 ∨ (0 + 8 ≤ i ∧ i < 0 + 24) ∨ 0 + 28 ≤ i) →
          st'.data.getD i 0 = (List.replicate 32 0xAB).getD i 0) :=
  ⟨⟨by decide, by decide, by decide⟩,
    writeValueU32_spec ⟨List.replicate 32 0xAB, false⟩ 0 7
      (by decide) (by decide) (by decide)⟩

/-- The representable range the claim assigns to each primitive NVS
datatype. -/
def nvsPrimRange : Nat → Int × Int
  | 0x01 => (0, 255)
  | 0x02 => (0, 65535)
  | 0x04 => (0, 4294967295)
  | 0x08 => (0, 18446744073709551615)
  | 0x11 => (-128, 127)
  | 0x12 => (-32768, 32767)
  | 0x14 => (-2147483648, 2147483647)
  | 0x18 => (-9223372036854775808, 9223372036854775807)
  | _ => (0, 0)

/-- C10: for every primitive NVS datatype, if the new value does not parse
(`none`) or lies outside the type's representable range, `_writeValue`
throws an error and the partition buffer and the modified flag are left
unchanged (the state of the result is exactly the input state). -/
theorem writeValuePrimitive_invalid (st : NVSState) (off dt : Nat)
    (newValue : Option Int)
    (hdt : dt ∈ [0x01, 0x02, 0x04, 0x08, 0x11, 0x12, 0x14, 0x18])
    (hbad : newValue = none ∨ ∃ v, newValue = some v ∧
      (v < (nvsPrimRange dt).1 ∨ (nvsPrimRange dt).2 < v)) :
    ∃ msg, writeValuePrimitive st off dt newValue =
      some { thrown := some msg, state := st } := by
  fin_cases hdt <;>
    rcases hbad with rfl | ⟨v, rfl, hv⟩ <;>
      first
        | exact ⟨_, rfl⟩
        | (simp only [nvsPrimRange] at hv
           simp only [writeValuePrimitive]
           rw [if_pos (by omega)]
           exact ⟨_, rfl⟩)

/-- Witness for C10: datatype U8, unparseable/overflowing value 300. -/
theorem writeValuePrimitive_invalid_witness :
    ((0x01 : Nat) ∈ [0x01, 0x02, 0x04, 0x08, 0x11, 0x12, 0x14, 0x18] ∧
      ((some (300 : Int) = none) ∨ ∃ v, some (300 : Int) = some v ∧
        (v < (nvsPrimRange 0x01).1 ∨ (nvsPrimRange 0x01).2 < v))) ∧
      ∃ msg, writeValuePrimitive ⟨List.replicate 32 0, false⟩ 0 0x01 (some 300) =
        some { thrown := some msg, state := ⟨List.replicate 32 0, false⟩ } :=
  ⟨⟨by decide, Or.inr ⟨300, rfl, by decide⟩⟩,
    writeValuePrimitive_invalid ⟨List.replicate 32 0, false⟩ 0 0x01 (some 300)
      (by decide) (Or.inr ⟨300, rfl, by decide⟩)⟩

/-! ### Filesystem-image detection (`detectFilesystemFromImage`) -/

/-- The result enum of the detector. -/
inductive FilesystemType where
  | unknown
  | littlefs
  | fatfs
  | spiffs
deriving DecidableEq, Repr

def LITTLEFS_BLOCK_SIZE_CANDIDATES : List Nat := [4096, 2048, 1024, 512]

def ESP8266_LITTLEFS_BLOCK_SIZE_CANDIDATES : List Nat := [8192, 4096]

/-- The ASCII bytes of the `littlefs` tag checked at offset 8 of a
candidate superblock. -/
def littlefsMagic : List Nat := [108, 105, 116, 116, 108, 101, 102, 115]

/-- The ASCII bytes of `FAT`. -/
def fatTag : List Nat := [70, 65, 84]

/-- One probe of the detector's LittleFS loop at a candidate superblock
offset: the `continue` on a short block, the bounds check on the tag, the
tag comparison at bytes `[8..16)`, and the version-word check
(`version !== 0 && (version >>> 0) !== 0xFFFFFFFF`). -/
def littlefsSuperblockProbe (imageData : List Nat) (superblockOffset : Nat) : Bool :=
  if superblockOffset + 20 > imageData.length then false
  else if superblockOffset + 8 + 8 ≤ imageData.length then
    if (imageData.drop (superblockOffset + 8)).take 8 = littlefsMagic then
      u32 imageData superblockOffset != 0 &&
        u32 imageData superblockOffset != 0xFFFFFFFF
    else false
  else false

/-- The FAT branch of the detector: boot signature `0xAA55` at bytes
`[510..512)` and a `FAT` prefix of the 5-byte tag at offset 54 or 82. -/
def fatSignatureCheck (imageData : List Nat) : Bool :=
  if 512 ≤ imageData.length then
    if imageData.getD 510 0 ||| (imageData.getD 511 0 <<< 8) = 0xAA55 then
      let fat16Sig := if 62 ≤ imageData.length then (imageData.drop 54).take 5 else []
      let fat32Sig := if 90 ≤ imageData.length then (imageData.drop 82).take 5 else []
      fat16Sig.take 3 = fatTag ∨ fat32Sig.take 3 = fatTag
    else false
  else false

/-- The SPIFFS branch of the detector: u32-LE at `[0..4)` equals
`0x20140529`. -/
def spiffsMagicCheck (imageData : List Nat) : Bool :=
  if 4 ≤ imageData.length then u32 imageData 0 == 0x20140529 else false

/-- `detectFilesystemFromImage`.  The only use the code makes of its
`chipName` parameter is the boolean `chipName contains "ESP8266"`, modelled
here as `isESP8266`. -/
def detectFilesystemFromImage (imageData : List Nat) (isESP8266 : Bool) :
    FilesystemType :=
  if imageData.length < 512 then .unknown
  else
    let blockSizes := if isESP8266 then ESP8266_LITTLEFS_BLOCK_SIZE_CANDIDATES
      else LITTLEFS_BLOCK_SIZE_CANDIDATES
    if blockSizes.any (fun blockSize =>
        [0, 1].any (fun blockIndex =>
          littlefsSuperblockProbe imageData (blockIndex * blockSize))) then
      .littlefs
    else if fatSignatureCheck imageData then .fatfs
    else if spiffsMagicCheck imageData then .spiffs
    else .unknown

/-- A 512-byte image carrying the `littlefs` tag at bytes `[8..16)` with
version word `0x00030000` (major version 3). -/
def fsEx : List Nat :=
  [0, 0, 3, 0] ++ [0, 0, 0, 0] ++ littlefsMagic ++ List.replicate 496 0

set_option maxRecDepth 100000 in
/-- C4 counterexample: `fsEx` is classified LittleFS although no candidate
superblock has major version 2 (block 0 carries major version 3 and every
other candidate offset is out of range), so the detector does not require
major version 2. -/
theorem detectFilesystem_counterexample :
    detectFilesystemFromImage fsEx false = .littlefs ∧
      ¬ (∃ bs ∈ LITTLEFS_BLOCK_SIZE_CANDIDATES, ∃ bi ∈ ([0, 1] : List Nat),
          (fsEx.drop (bi * bs + 8)).take 8 = littlefsMagic ∧
            u32 fsEx (bi * bs) >>> 16 = 2) := by
  constructor
  · decide
  · decide

/-- The LittleFS acceptance condition the detector actually implements, in
the words of the amended claim. -/
def littlefsAmendedProbe (imageData : List Nat) (off : Nat) : Prop :=
  off + 20 ≤ imageData.length ∧
    (imageData.drop (off + 8)).take 8 = littlefsMagic ∧
    u32 imageData off ≠ 0 ∧ u32 imageData off ≠ 0xFFFFFFFF

theorem littlefsSuperblockProbe_iff (imageData : List Nat) (off : Nat) :
    littlefsSuperblockProbe imageData off = true ↔
      littlefsAmendedProbe imageData off := by
  rw [littlefsSuperblockProbe, littlefsAmendedProbe]
  by_cases h1 : off + 20 > imageData.length
  · rw [if_pos h1]
    simp only [Bool.false_eq_true, false_iff]
    rintro ⟨h2, -⟩
    omega
  · rw [if_neg h1, if_pos (by omega : off + 8 + 8 ≤ imageData.length)]
    by_cases h2 : (imageData.drop (off + 8)).take 8 = littlefsMagic
    · rw [if_pos h2]
      simp only [Bool.and_eq_true, bne_iff_ne]
      constructor
      · rintro ⟨h3, h4⟩
        exact ⟨by omega, h2, h3, h4⟩
      · rintro ⟨-, -, h3, h4⟩
        exact ⟨h3, h4⟩
    · rw [if_neg h2]
      simp only [Bool.false_eq_true, false_iff]
      rintro ⟨-, h3, -⟩
      exact h2 h3

/-- C4 amended: the detector classifies an image as LittleFS precisely when
it is at least 512 bytes long and, for some candidate block size and block
index in `{0, 1}`, the candidate superblock lies in bounds, bytes
`[8..16)` of it equal the ASCII tag `littlefs`, and its 4-byte
little-endian version word is neither 0 nor `0xFFFFFFFF` — the major
version is not examined. -/
theorem detectFilesystem_littlefs_iff (imageData : List Nat) (isESP8266 : Bool) :
    detectFilesystemFromImage imageData isESP8266 = .littlefs ↔
      (512 ≤ imageData.length ∧
        ∃ bs ∈ (if isESP8266 then ESP8266_LITTLEFS_BLOCK_SIZE_CANDIDATES
          else LITTLEFS_BLOCK_SIZE_CANDIDATES), ∃ bi ∈ ([0, 1] : List Nat),
            littlefsAmendedProbe imageData (bi * bs)) := by
  rw [detectFilesystemFromImage]
  by_cases hlen : imageData.length < 512
  · rw [if_pos hlen]
    constructor
    · intro h
      exact absurd h (by decide)
    · rintro ⟨h, -⟩
      omega
  · rw [if_neg hlen]
    by_cases hprobe : (if isESP8266 then ESP8266_LITTLEFS_BLOCK_SIZE_CANDIDATES
        else LITTLEFS_BLOCK_SIZE_CANDIDATES).any (fun blockSize =>
          ([0, 1] : List Nat).any (fun blockIndex =>
            littlefsSuperblockProbe imageData (blockIndex * blockSize)))
    · rw [if_pos hprobe]
      rw [List.any_eq_true] at hprobe
      rcases hprobe with ⟨bs, hbs, hany⟩
      rw [List.any_eq_true] at hany
      rcases hany with ⟨bi, hbi, hp⟩
      exact ⟨fun _ => ⟨by omega, bs, hbs, bi, hbi,
        (littlefsSuperblockProbe_iff imageData (bi * bs)).mp hp⟩, fun _ => rfl⟩
    · rw [if_neg hprobe]
      constructor
      · intro h
        by_cases hf : fatSignatureCheck imageData = true
        · rw [if_pos hf] at h
          exact absurd h (by decide)
        · rw [if_neg hf] at h
          by_cases hs : spiffsMagicCheck imageData = true
          · rw [if_pos hs] at h
            exact absurd h (by decide)
          · rw [if_neg hs] at h
            exact absurd h (by decide)
      · rintro ⟨-, bs, hbs, bi, hbi, hp⟩
        exact absurd (List.any_eq_true.mpr ⟨bs, hbs, List.any_eq_true.mpr
          ⟨bi, hbi, (littlefsSuperblockProbe_iff imageData (bi * bs)).mpr hp⟩⟩) hprobe

/-! ### LittleFS usage estimation (`littlefsEstimateFileFootprint` /
`littlefsEstimateUsage`) -/

/-- A filesystem listing entry as the estimator consumes it: its `type`
string (`dir` or `file`) and its size in bytes. -/
structure FSEntry where
  type : String
  size : Nat
deriving DecidableEq, Repr

/-- `littlefsEstimateFileFootprint`: data blocks
(`Math.max(1, Math.ceil(size / block)) * block`) plus one per-file metadata
block.  The module variable `currentLittleFSBlockSize || 4096` is the
parameter `blockVar` (`0` models the unset/falsy case). -/
def littlefsEstimateFileFootprint (blockVar : Nat) (size : Nat) : Nat :=
  let block := if blockVar = 0 then 4096 else blockVar
  let dataBytes := max 1 ((size + block - 1) / block) * block
  let metadataBytes := block
  dataBytes + metadataBytes

/-- `littlefsEstimateUsage`: two root metadata blocks plus, per entry, one
block for a directory or the file footprint. -/
def littlefsEstimateUsage (blockVar : Nat) (entries : List FSEntry) : Nat :=
  let block := if blockVar = 0 then 4096 else blockVar
  entries.foldl
    (fun total entry =>
      if entry.type = "dir" then total + block
      else total + littlefsEstimateFileFootprint blockVar entry.size)
    (block * 2)

/-- The usage formula exactly as the claim words it: `2 × block` plus
`ceil(size / block) × block + block` per file and `block` per directory. -/
def littlefsUsageClaimed (block : Nat) (entries : List FSEntry) : Nat :=
  2 * block +
    (entries.map (fun e =>
      if e.type = "dir" then block
      else (e.size + block - 1) / block * block + block)).sum

/-- The usage formula the code implements: as claimed, but a file occupies
at least one data block (`max 1` around the ceiling). -/
def littlefsUsageAmended (block : Nat) (entries : List FSEntry) : Nat :=
  2 * block +
    (entries.map (fun e =>
      if e.type = "dir" then block
      else max 1 ((e.size + block - 1) / block) * block + block)).sum

/-- C7 counterexample: with block size 4096, a single file of size 0 is
estimated at `2 × 4096` (one data block plus one metadata block) on top of
the root blocks — `16384` in total — while the claim's formula
(`ceil(0 / block) × block + block`) yields `12288`: a size-0 file does not
contribute only its metadata block. -/
theorem littlefsEstimateUsage_counterexample :
    littlefsEstimateUsage 4096 [⟨"file", 0⟩] = 16384 ∧
      littlefsUsageClaimed 4096 [⟨"file", 0⟩] = 12288 ∧
      littlefsEstimateUsage 4096 [⟨"file", 0⟩] ≠
        littlefsUsageClaimed 4096 [⟨"file", 0⟩] := by
  refine ⟨rfl, rfl, ?_⟩
  decide

theorem littlefsEstimateUsage_foldl (blockVar : Nat) (entries : List FSEntry) :
    ∀ acc : Nat,
      entries.foldl
        (fun total entry =>
          if entry.type = "dir" then total +
            (if blockVar = 0 then 4096 else blockVar)
          else total + littlefsEstimateFileFootprint blockVar entry.size)
        acc =
      acc + (entries.map (fun e =>
        if e.type = "dir" then (if blockVar = 0 then 4096 else blockVar)
        else max 1 ((e.size + (if blockVar = 0 then 4096 else blockVar) - 1) /
            (if blockVar = 0 then 4096 else blockVar)) *
          (if blockVar = 0 then 4096 else blockVar) +
          (if blockVar = 0 then 4096 else blockVar))).sum := by
  induction entries with
  | nil => intro acc; simp
  | cons e es ih =>
    intro acc
    rw [List.foldl_cons, List.map_cons, List.sum_cons, ih]
    by_cases hd : e.type = "dir"
    · rw [if_pos hd, if_pos hd]
      omega
    · rw [if_neg hd, if_neg hd, littlefsEstimateFileFootprint]
      omega

/-- C7 amended: `littlefsEstimateUsage` equals `2 × block` plus, for each
file, `max(1, ceil(size / block)) × block + block`, plus `block` per
directory, where `block` is the effective block size (`4096` when the
module block size is unset); in particular a file of size 0 contributes one
data block and one metadata block. -/
theorem littlefsEstimateUsage_spec (blockVar : Nat) (entries : List FSEntry) :
    littlefsEstimateUsage blockVar entries =
      littlefsUsageAmended (if blockVar = 0 then 4096 else blockVar) entries := by
  rw [littlefsEstimateUsage, littlefsUsageAmended, littlefsEstimateUsage_foldl]
  omega

/-! ### node-usb adapter signal handling (`src/src/node-usb-adapter.ts`,
`setSignals`, `currentDTR`/`currentRTS`) -/

/-- The adapter's stored signal levels (`currentDTR`, `currentRTS`). -/
structure SignalState where
  dtr : Bool
  rts : Bool
deriving DecidableEq, Repr

/-- A `setSignals` argument: each line is optional; the `break` member is
accepted by the interface and ignored by this adapter. -/
structure SignalRequest where
  dataTerminalReady : Option Bool
  requestToSend : Option Bool
  breakSignal : Option Bool
deriving DecidableEq, Repr

/-- `setSignals`: an unspecified line keeps the stored level
(`signals.dataTerminalReady !== undefined ? … : currentDTR`); the computed
pair is stored back and is exactly what the chip-specific control transfer
transmits. -/
def setSignalsStep (st : SignalState) (req : SignalRequest) : SignalState :=
  let dtr := req.dataTerminalReady.getD st.dtr
  let rts := req.requestToSend.getD st.rts
  { dtr := dtr, rts := rts }

/-- The adapter's initial signal state (`currentDTR = false`,
`currentRTS = false`). -/
def initialSignalState : SignalState := ⟨false, false⟩

/-- The stored state after a sequence of `setSignals` calls. -/
def runSetSignals (calls : List SignalRequest) : SignalState :=
  calls.foldl setSignalsStep initialSignalState

/-- The most recently set RTS value across a call sequence, `false` when
never set — the claim's reference value. -/
def mostRecentRTS (calls : List SignalRequest) : Bool :=
  ((calls.reverse.findSome? fun c => c.requestToSend).getD false)

/-- The most recently set DTR value across a call sequence, `false` when
never set. -/
def mostRecentDTR (calls : List SignalRequest) : Bool :=
  ((calls.reverse.findSome? fun c => c.dataTerminalReady).getD false)

theorem runSetSignals_foldl (calls : List SignalRequest) :
    ∀ st : SignalState,
      (calls.foldl setSignalsStep st).rts =
        (calls.reverse.findSome? fun c => c.requestToSend).getD st.rts ∧
      (calls.foldl setSignalsStep st).dtr =
        (calls.reverse.findSome? fun c => c.dataTerminalReady).getD st.dtr := by
  induction calls with
  | nil => intro st; exact ⟨rfl, rfl⟩
  | cons c cs ih =>
    intro st
    have hor : ∀ (x y : Option Bool) (d : Bool), (x.or y).getD d = x.getD (y.getD d) := by
      intro x y d
      cases x <;> cases y <;> rfl
    have hsingleR : List.findSome? (fun x => x.requestToSend) [c] = c.requestToSend := by
      cases h : c.requestToSend <;> simp [List.findSome?_cons, h]
    have hsingleD : List.findSome? (fun x => x.dataTerminalReady) [c] =
        c.dataTerminalReady := by
      cases h : c.dataTerminalReady <;> simp [List.findSome?_cons, h]
    rw [List.foldl_cons, List.reverse_cons, List.findSome?_append,
      List.findSome?_append]
    rcases ih (setSignalsStep st c) with ⟨h1, h2⟩
    rw [h1, h2, hor, hor, hsingleR, hsingleD]
    exact ⟨rfl, rfl⟩

/-- C8: after any sequence of `setSignals` calls, a call that specifies
only DTR transmits an RTS level equal to the most recently set RTS value
(`false` if none was ever set), and a call that specifies only RTS
transmits the most recently set DTR value — partial updates preserve the
other line. -/
theorem setSignals_partial_update (calls : List SignalRequest) (b : Bool) :
    (setSignalsStep (runSetSignals calls) ⟨some b, none, none⟩).rts =
        mostRecentRTS calls ∧
      (setSignalsStep (runSetSignals calls) ⟨none, some b, none⟩).dtr =
        mostRecentDTR calls := by
  rcases runSetSignals_foldl calls initialSignalState with ⟨h1, h2⟩
  constructor
  · show (runSetSignals calls).rts = mostRecentRTS calls
    rw [runSetSignals, h1]
    rfl
  · show (runSetSignals calls).dtr = mostRecentDTR calls
    rw [runSetSignals, h2]
    rfl

/-! ### FTDI baud-rate initialization (`src/src/node-usb-adapter.ts`,
`initializeChip`, FTDI branch).  For a positive integer baud rate the
JavaScript double arithmetic (`3000000 / baudRate`, `Math.floor`, the
comparisons against the dyadic bucket edges) is exact at every point the
code inspects, so the computation is modelled over `ℚ`. -/

/-- The sub-integer bucket selection of the FTDI branch: `fractionalPart`
against the edges 0.0625, 0.1875, …, 0.8125. -/
def ftdiSubInteger (fractionalPart : ℚ) : Nat :=
  if fractionalPart < 0.0625 then 0
  else if fractionalPart < 0.1875 then 1
  else if fractionalPart < 0.3125 then 2
  else if fractionalPart < 0.4375 then 3
  else if fractionalPart < 0.5625 then 4
  else if fractionalPart < 0.6875 then 5
  else if fractionalPart < 0.8125 then 6
  else 7

/-- The FTDI baud divisor computation of `initializeChip` (base clock
3 MHz): the `(value, index)` pair of the baud-rate control transfer
(vendor request 0x03). -/
def ftdiBaudParams (baudRate : Nat) : Nat × Nat :=
  let divisor : ℚ := 3000000 / baudRate
  let integerPart : Nat := ⌊divisor⌋.toNat
  let fractionalPart : ℚ := divisor - integerPart
  let subInteger := ftdiSubInteger fractionalPart
  let value := (integerPart &&& 0xFF) ||| ((subInteger &&& 0x07) <<< 14) |||
    (((integerPart >>> 8) &&& 0x3F) <<< 8)
  let index := (integerPart >>> 14) &&& 0x03
  (value, index)

/-- The control value exactly as the claim words it:
`(I & 0xFF) | (S << 14) | (((I >> 8) & 0x3F) << 8)` for `d = 3000000 / b`,
`I = ⌊d⌋`, `f = d - I`, and `S` the bucket index of `f`. -/
def ftdiValueSpec (b : Nat) : Nat :=
  let d : ℚ := 3000000 / b
  let I : Nat := ⌊d⌋.toNat
  let f : ℚ := d - I
  let S : Nat :=
    if f < 0.0625 then 0
    else if f < 0.1875 then 1
    else if f < 0.3125 then 2
    else if f < 0.4375 then 3
    else if f < 0.5625 then 4
    else if f < 0.6875 then 5
    else if f < 0.8125 then 6
    else 7
  (I &&& 0xFF) ||| (S <<< 14) ||| (((I >>> 8) &&& 0x3F) <<< 8)

/-- The control index exactly as the claim words it: `(I >> 14) & 0x03`. -/
def ftdiIndexSpec (b : Nat) : Nat :=
  (⌊(3000000 : ℚ) / b⌋.toNat >>> 14) &&& 0x03

theorem ftdiSubInteger_and7 (f : ℚ) : ftdiSubInteger f &&& 7 = ftdiSubInteger f := by
  unfold ftdiSubInteger
  repeat' split
  all_goals rfl

/-- C6: for every baud rate `b > 0`, the FTDI initialization issues the
baud-rate control transfer with exactly the value and index the claim's
formula prescribes: the 14-bit integer part of `3000000 / b` split across
value bits [0..8) and [8..14), the 3-bit bucketed sub-integer in value bits
[14..17), and the remaining integer-part bits in the index. -/
theorem ftdiBaudParams_spec (b : Nat) (hb : 0 < b) :
    ftdiBaudParams b = (ftdiValueSpec b, ftdiIndexSpec b) := by
  unfold ftdiBaudParams ftdiValueSpec ftdiIndexSpec
  dsimp only
  rw [ftdiSubInteger_and7]
  rfl

/-- Witness for C6 at baud rate 115200 (divisor 26.041̄6, bucket 0). -/
theorem ftdiBaudParams_spec_witness :
    0 < 115200 ∧ ftdiBaudParams 115200 = (ftdiValueSpec 115200, ftdiIndexSpec 115200) :=
  ⟨by decide, ftdiBaudParams_spec 115200 (by decide)⟩

end Esp32tool
